import Mathlib

/-!
Shallow embedding of the poster2web section/content data model and its
normalization and rendering pipeline, together with proofs of the spec's
testable properties.  Definitions are translated from the JavaScript source
(the app code embedded in README.md, js/editor.js and js/fileHandlers.js).
JavaScript `undefined`-able fields are modelled with `Option`; JavaScript
string falsiness (`x || d`) is modelled by testing for the empty string.
-/

namespace Poster2web

/-- A content block inside a section.  JS objects carry `type`, `value`,
`allowHtml` for text blocks and `url`, `caption` for image blocks; an `id`
is present on some blocks only, hence `Option`. -/
structure ContentBlock where
  type : String
  value : String := ""
  allowHtml : Bool := false
  url : Option String := none
  caption : Option String := none
  id : Option String := none
deriving Repr, DecidableEq

/-- A section of the project.  `isHeader` is falsy when absent in JS, so it
defaults to `false`; `showIcon` distinguishes absent (`none`) from an
explicit boolean (`some b`). -/
structure Section where
  id : String
  name : String
  icon : String
  isHeader : Bool := false
  showIcon : Option Bool := none
  content : List ContentBlock := []
deriving Repr, DecidableEq

/-- The project: title, optional logo data URI, and the ordered sections. -/
structure Project where
  title : Option String := none
  logoUrl : Option String := none
  sections : List Section := []
deriving Repr, DecidableEq

/-- A call-to-action button (file download / external link / email). -/
structure FileData where
  name : String := ""
  size : Nat := 0
  mimeType : String := ""
  dataUrl : String := ""
deriving Repr, DecidableEq

structure Button where
  id : String
  type : String
  label : String := ""
  file : Option FileData := none
  href : Option String := none
  email : Option String := none
deriving Repr, DecidableEq

/-- The style-settings object (the button-related and layout-related part
used by the embedded operations; legacy single-purpose fields included). -/
structure Settings where
  layoutStyle : String := "single"
  buttons : Option (List Button) := none
  uploadedFile : Option FileData := none
  uploadedFileName : Option String := none
  downloadButtonText : Option String := none
  contactButtonUrl : Option String := none
  contactButtonText : Option String := none
deriving Repr, DecidableEq

/-- JS `x || d` for an optional string: empty string is falsy. -/
def strOrDefault (x : Option String) (d : String) : String :=
  match x with
  | some t => if t = "" then d else t
  | none => d

/-- JS truthiness of an optional string value: `some s` is truthy iff `s`
is nonempty. -/
def truthyStr (x : Option String) : Option String :=
  match x with
  | some t => if t = "" then none else some t
  | none => none

-- ===================================================
-- HEADER NORMALIZATION (README.md: enforceHeaderPosition,
-- ensureHeaderExists, updateProject)
-- ===================================================

/-- Demote a section: clear its `isHeader` flag (used on every header found
after the first one). -/
def demoteFlag (t : Section) : Section :=
  if t.isHeader then { t with isHeader := false } else t

/-- Demote all headers after the first encountered one, as the scan loops
in `ensureHeaderExists` / `enforceHeaderPosition` do. -/
def demoteExtraHeaders : List Section → List Section
  | [] => []
  | s :: rest =>
    if s.isHeader then s :: rest.map demoteFlag
    else s :: demoteExtraHeaders rest

/-- Find the first section flagged as header and detach it from the list
(the `splice(headerIndex, 1)` step). -/
def pullHeader : List Section → Option (Section × List Section)
  | [] => none
  | s :: rest =>
    if s.isHeader then some (s, rest)
    else (pullHeader rest).map (fun p => (p.1, s :: p.2))

/-- Move the first header section (if any) to index 0, keeping the order
of the remaining sections (`splice` + `unshift`); no header means no
change, and a header already at index 0 is left in place. -/
def moveFirstHeaderToFront (l : List Section) : List Section :=
  match pullHeader l with
  | none => l
  | some p => p.1 :: p.2

/-- `enforceHeaderPosition`: demote any header after the first, then move
the first header to the front.  (An empty array is returned unchanged,
which the composition also does.) -/
def enforceHeaderPosition (p : Project) : Project :=
  { p with sections := moveFirstHeaderToFront (demoteExtraHeaders p.sections) }

/-- The header section synthesized by `ensureHeaderExists` when no section
is flagged as header.  `hid`/`cid` stand for the two freshly generated ids
(`createUniqueId()` / the `Date.now()` fallback). -/
def mkSynthHeader (title : Option String) (hid cid : String) : Section :=
  { id := hid
    name := "Header"
    icon := "📄"
    isHeader := true
    showIcon := none
    content := [{ type := "text"
                  value := "<h1>" ++ strOrDefault title "Header" ++ "</h1>"
                  allowHtml := false
                  url := none
                  caption := none
                  id := some cid }] }

/-- `ensureHeaderExists(project)`: if no section is flagged header, insert
a synthesized header at index 0; otherwise demote all but the first header
and move it to the front. -/
def ensureHeaderExists (p : Project) (hid cid : String) : Project :=
  if p.sections.all (fun s => !s.isHeader) then
    { p with sections := mkSynthHeader p.title hid cid :: p.sections }
  else
    { p with sections := moveFirstHeaderToFront (demoteExtraHeaders p.sections) }

/-- The normalization pass run at the start of `updateProject`:
`ensureHeaderExists` followed by `enforceHeaderPosition`. -/
def updateProjectNormalize (p : Project) (hid cid : String) : Project :=
  enforceHeaderPosition (ensureHeaderExists p hid cid)

-- Basic lemmas about the normalization helpers.

theorem demoteFlag_isHeader (t : Section) : (demoteFlag t).isHeader = false := by
  unfold demoteFlag
  by_cases h : t.isHeader
  · simp [h]
  · simp [h]

theorem demoteFlag_of_not_header (t : Section) (h : t.isHeader = false) :
    demoteFlag t = t := by
  unfold demoteFlag
  simp [h]

theorem countP_map_demoteFlag (l : List Section) :
    (l.map demoteFlag).countP (fun s => s.isHeader) = 0 := by
  induction l with
  | nil => simp
  | cons s rest ih =>
    simp [List.countP_cons, ih, demoteFlag_isHeader]

theorem map_demoteFlag_of_no_header (l : List Section)
    (h : l.countP (fun s => s.isHeader) = 0) : l.map demoteFlag = l := by
  induction l with
  | nil => rfl
  | cons s rest ih =>
    rw [List.countP_cons] at h
    by_cases hs : s.isHeader
    · simp [hs] at h
    · simp only [List.map_cons]
      rw [demoteFlag_of_not_header s (by simp [hs]), ih (by omega)]

theorem demoteExtraHeaders_cons_pos (s : Section) (rest : List Section)
    (hs : s.isHeader = true) :
    demoteExtraHeaders (s :: rest) = s :: rest.map demoteFlag := by
  simp [demoteExtraHeaders, hs]

theorem demoteExtraHeaders_cons_neg (s : Section) (rest : List Section)
    (hs : s.isHeader = false) :
    demoteExtraHeaders (s :: rest) = s :: demoteExtraHeaders rest := by
  simp [demoteExtraHeaders, hs]

theorem demoteExtraHeaders_count_of_any (l : List Section)
    (h : l.countP (fun s => s.isHeader) ≠ 0) :
    (demoteExtraHeaders l).countP (fun s => s.isHeader) = 1 := by
  induction l with
  | nil => simp at h
  | cons s rest ih =>
    by_cases hs : s.isHeader
    · rw [demoteExtraHeaders_cons_pos s rest hs, List.countP_cons,
        countP_map_demoteFlag]
      simp [hs]
    · have hs' : s.isHeader = false := by simpa using hs
      have hrest : rest.countP (fun t => t.isHeader) ≠ 0 := by
        rw [List.countP_cons] at h
        simp only [hs'] at h
        simpa using h
      rw [demoteExtraHeaders_cons_neg s rest hs', List.countP_cons, ih hrest]
      simp [hs']

theorem demoteExtraHeaders_of_head_header (s : Section) (rest : List Section)
    (hs : s.isHeader = true) (hr : rest.countP (fun t => t.isHeader) = 0) :
    demoteExtraHeaders (s :: rest) = s :: rest := by
  simp [demoteExtraHeaders, hs, map_demoteFlag_of_no_header rest hr]

theorem pullHeader_of_head_header (s : Section) (rest : List Section)
    (hs : s.isHeader = true) : pullHeader (s :: rest) = some (s, rest) := by
  simp [pullHeader, hs]

theorem pullHeader_eq_some (l : List Section)
    (h : l.countP (fun s => s.isHeader) ≠ 0) :
    ∃ hd tl, pullHeader l = some (hd, tl) ∧ hd.isHeader = true ∧
      tl.countP (fun s => s.isHeader) = l.countP (fun s => s.isHeader) - 1 := by
  induction l with
  | nil => simp at h
  | cons s rest ih =>
    by_cases hs : s.isHeader
    · exact ⟨s, rest, pullHeader_of_head_header s rest hs, hs, by
        simp [List.countP_cons, hs]⟩
    · rw [List.countP_cons] at h
      simp only [hs] at h
      obtain ⟨hd, tl, hp, hh, hc⟩ := ih (by simpa using h)
      refine ⟨hd, s :: tl, ?_, hh, ?_⟩
      · simp [pullHeader, hs, hp]
      · rw [List.countP_cons, List.countP_cons]
        simp only [hs]
        have hne : rest.countP (fun s => s.isHeader) ≠ 0 := by simpa using h
        omega

theorem moveFirstHeaderToFront_invariant (l : List Section)
    (h : l.countP (fun s => s.isHeader) = 1) :
    ∃ hd tl, moveFirstHeaderToFront l = hd :: tl ∧ hd.isHeader = true ∧
      tl.countP (fun s => s.isHeader) = 0 := by
  obtain ⟨hd, tl, hp, hh, hc⟩ := pullHeader_eq_some l (by omega)
  exact ⟨hd, tl, by simp [moveFirstHeaderToFront, hp], hh, by omega⟩

/-- After `ensureHeaderExists`, the sections list is `hd :: tl` with `hd`
a header and no header in `tl`. -/
theorem ensureHeaderExists_invariant (p : Project) (hid cid : String) :
    ∃ hd tl, (ensureHeaderExists p hid cid).sections = hd :: tl ∧
      hd.isHeader = true ∧ tl.countP (fun s => s.isHeader) = 0 := by
  unfold ensureHeaderExists
  by_cases h : p.sections.all (fun s => !s.isHeader)
  · refine ⟨mkSynthHeader p.title hid cid, p.sections, by simp [h], rfl, ?_⟩
    rw [List.countP_eq_zero]
    intro a ha
    have := List.all_eq_true.mp h a ha
    simpa using this
  · have hcount : p.sections.countP (fun s => s.isHeader) ≠ 0 := by
      intro hc
      apply h
      rw [List.all_eq_true]
      intro a ha
      rw [List.countP_eq_zero] at hc
      have := hc a ha
      simpa using this
    obtain ⟨hd, tl, hm, hh, hc⟩ := moveFirstHeaderToFront_invariant
      (demoteExtraHeaders p.sections)
      (demoteExtraHeaders_count_of_any p.sections hcount)
    exact ⟨hd, tl, by simp [h, hm], hh, hc⟩

/-- `enforceHeaderPosition` leaves an already-normalized list unchanged. -/
theorem enforceHeaderPosition_of_normalized (p : Project) (hd : Section)
    (tl : List Section) (hs : p.sections = hd :: tl) (hh : hd.isHeader = true)
    (hc : tl.countP (fun s => s.isHeader) = 0) :
    enforceHeaderPosition p = p := by
  unfold enforceHeaderPosition
  rw [hs, demoteExtraHeaders_of_head_header hd tl hh hc]
  rw [moveFirstHeaderToFront, pullHeader_of_head_header hd tl hh]
  cases p
  simp_all

/-- A project whose sections are already normalized (header at the front,
no other header) is a fixpoint of `ensureHeaderExists`. -/
theorem ensureHeaderExists_of_normalized (q : Project) (hd : Section)
    (tl : List Section) (hs : q.sections = hd :: tl) (hh : hd.isHeader = true)
    (hc : tl.countP (fun s => s.isHeader) = 0) (hid cid : String) :
    ensureHeaderExists q hid cid = q := by
  have hnotall : ¬ (q.sections.all (fun s => !s.isHeader) = true) := by
    rw [hs]
    simp [hh]
  unfold ensureHeaderExists
  rw [if_neg hnotall, hs, demoteExtraHeaders_of_head_header hd tl hh hc]
  rw [moveFirstHeaderToFront, pullHeader_of_head_header hd tl hh, ← hs]
  cases q
  simp_all

/-- C1: after the normalization pass run by `updateProject`
(`ensureHeaderExists` then `enforceHeaderPosition`), the sections list
contains exactly one section with `isHeader = true` and it is at index 0,
whatever the starting number of header-flagged sections was. -/
theorem updateProject_header_unique_at_front (p : Project) (hid cid : String) :
    (updateProjectNormalize p hid cid).sections.countP (fun s => s.isHeader) = 1 ∧
    ∃ hd tl, (updateProjectNormalize p hid cid).sections = hd :: tl ∧
      hd.isHeader = true := by
  obtain ⟨hd, tl, hs, hh, hc⟩ := ensureHeaderExists_invariant p hid cid
  have henf : enforceHeaderPosition (ensureHeaderExists p hid cid) =
      ensureHeaderExists p hid cid :=
    enforceHeaderPosition_of_normalized _ hd tl hs hh hc
  unfold updateProjectNormalize
  rw [henf, hs]
  refine ⟨?_, hd, tl, rfl, hh⟩
  rw [List.countP_cons]
  simp [hh, hc]

/-- C6: `ensureHeaderExists` is idempotent, and when no section is flagged
as header it synthesizes a single new header section at index 0 whose text
block wraps the project title (falling back to the literal "Header") as a
level-1 heading. -/
theorem ensureHeaderExists_idempotent (p : Project) (hid cid hid2 cid2 : String) :
    ensureHeaderExists (ensureHeaderExists p hid cid) hid2 cid2 =
      ensureHeaderExists p hid cid ∧
    (p.sections.all (fun s => !s.isHeader) = true →
      (ensureHeaderExists p hid cid).sections =
        mkSynthHeader p.title hid cid :: p.sections) ∧
    (mkSynthHeader p.title hid cid).content =
      [{ type := "text"
         value := "<h1>" ++ strOrDefault p.title "Header" ++ "</h1>"
         allowHtml := false
         url := none
         caption := none
         id := some cid }] := by
  refine ⟨?_, ?_, rfl⟩
  · obtain ⟨hd, tl, hs, hh, hc⟩ := ensureHeaderExists_invariant p hid cid
    exact ensureHeaderExists_of_normalized _ hd tl hs hh hc hid2 cid2
  · intro h
    unfold ensureHeaderExists
    simp [h]

/-- Closed witness for the idempotence and header-synthesis theorem, at a
project with no header-flagged section. -/
def witnessProjectNoHeader : Project :=
  { title := some "My Poster"
    logoUrl := none
    sections := [{ id := "s1", name := "Intro", icon := "A", isHeader := false,
                   showIcon := some true, content := [] }] }

theorem ensureHeaderExists_idempotent_witness :
    ensureHeaderExists (ensureHeaderExists witnessProjectNoHeader "h1" "c1") "h2" "c2" =
      ensureHeaderExists witnessProjectNoHeader "h1" "c1" ∧
    (ensureHeaderExists witnessProjectNoHeader "h1" "c1").sections =
      mkSynthHeader witnessProjectNoHeader.title "h1" "c1" ::
        witnessProjectNoHeader.sections := by
  have h := ensureHeaderExists_idempotent witnessProjectNoHeader "h1" "c1" "h2" "c2"
  exact ⟨h.1, h.2.1 (by decide)⟩

-- ===================================================
-- STRING PRIMITIVES (shared by migration, parsing, rendering)
-- ===================================================

/-- Does the second list lead the first one (JS `startsWith` on chars)? -/
def leadsWith : List Char → List Char → Bool
  | [], _ => true
  | _ :: _, [] => false
  | a :: as, b :: bs => a = b && leadsWith as bs

/-- Does `t` occur as a contiguous run inside `s` (JS `includes`)? -/
def occursIn (t : List Char) : List Char → Bool
  | [] => leadsWith t []
  | c :: cs => leadsWith t (c :: cs) || occursIn t cs

/-- JS `s.startsWith(t)`. -/
def startsWithStr (s t : String) : Bool := leadsWith t.data s.data

/-- JS `s.includes(t)`. -/
def strHasSub (s t : String) : Bool := occursIn t.data s.data

/-- JS `s.trim()`: strip leading and trailing whitespace. -/
def trimStr (s : String) : String :=
  String.mk (((s.data.dropWhile Char.isWhitespace).reverse.dropWhile
    Char.isWhitespace).reverse)

/-- JS `s.toLowerCase()` (ASCII case mapping). -/
def lowerStr (s : String) : String := String.mk (s.data.map Char.toLower)

-- ===================================================
-- LEGACY SETTINGS MIGRATION (README.md: migrateLegacySettings)
-- ===================================================

/-- The `delete settings.<legacy field>` block that both branches of
`migrateLegacySettings` run. -/
def clearLegacy (s : Settings) : Settings :=
  { s with uploadedFile := none
           uploadedFileName := none
           downloadButtonText := none
           contactButtonUrl := none
           contactButtonText := none }

/-- `migrateLegacySettings()`: if `buttons` already has entries, only delete
stray legacy fields; otherwise build up to two buttons from the legacy
fields (file migration before contact migration), truncate to three, store
them, and delete the legacy fields.  `id1`/`id2` stand for the ids produced
by `createUniqueId()`. -/
def migrateLegacySettings (s : Settings) (id1 id2 : String) : Settings :=
  if (s.buttons.getD []).length > 0 then
    clearLegacy s
  else
    let fileButtons : List Button :=
      match s.uploadedFile with
      | some f => [{ id := id1, type := "file"
                     label := strOrDefault s.downloadButtonText "Download"
                     file := some f, href := none, email := none }]
      | none => []
    let contactButtons : List Button :=
      match truthyStr s.contactButtonUrl with
      | some raw =>
        let url := trimStr raw
        let isEmail := url.data.contains '@' &&
          !(startsWithStr (lowerStr url) "http:" ||
            startsWithStr (lowerStr url) "https:")
        [{ id := id2
           type := if isEmail then "email" else "link"
           label := strOrDefault s.contactButtonText "Contact Us"
           file := none
           href := if isEmail then none else some url
           email := if isEmail then some url else none }]
      | none => []
    clearLegacy { s with buttons := some ((fileButtons ++ contactButtons).take 3) }

/-- No legacy field is present on a settings object. -/
def noLegacyFields (s : Settings) : Prop :=
  s.uploadedFile = none ∧ s.uploadedFileName = none ∧
  s.downloadButtonText = none ∧ s.contactButtonUrl = none ∧
  s.contactButtonText = none

theorem clearLegacy_noLegacy (s : Settings) : noLegacyFields (clearLegacy s) := by
  refine ⟨rfl, rfl, rfl, rfl, rfl⟩

theorem clearLegacy_buttons (s : Settings) : (clearLegacy s).buttons = s.buttons := rfl

theorem clearLegacy_of_noLegacy (s : Settings) (h : noLegacyFields s) :
    clearLegacy s = s := by
  obtain ⟨h1, h2, h3, h4, h5⟩ := h
  cases s
  simp_all [clearLegacy]

theorem migrateLegacySettings_noLegacy (s : Settings) (id1 id2 : String) :
    noLegacyFields (migrateLegacySettings s id1 id2) := by
  unfold migrateLegacySettings
  by_cases h : (s.buttons.getD []).length > 0
  · rw [if_pos h]
    exact clearLegacy_noLegacy s
  · rw [if_neg h]
    exact clearLegacy_noLegacy _

theorem migrateLegacySettings_buttons_some (s : Settings) (id1 id2 : String) :
    ∃ bs, (migrateLegacySettings s id1 id2).buttons = some bs := by
  unfold migrateLegacySettings
  by_cases h : (s.buttons.getD []).length > 0
  · rw [if_pos h]
    rw [clearLegacy_buttons]
    match hb : s.buttons with
    | some bs => exact ⟨bs, rfl⟩
    | none => rw [hb] at h; simp at h
  · rw [if_neg h]
    exact ⟨_, rfl⟩

/-- On a settings object with no legacy fields and a present `buttons`
array, migration leaves `buttons` unchanged. -/
theorem migrateLegacySettings_buttons_of_noLegacy (q : Settings)
    (bs : List Button) (c d : String) (hleg : noLegacyFields q)
    (hbs : q.buttons = some bs) :
    (migrateLegacySettings q c d).buttons = q.buttons := by
  obtain ⟨h1, h2, h3, h4, h5⟩ := hleg
  unfold migrateLegacySettings
  by_cases h : (q.buttons.getD []).length > 0
  · rw [if_pos h, clearLegacy_buttons]
  · rw [if_neg h]
    rw [hbs] at h
    simp only [Option.getD_some] at h
    have hnil : bs = [] := by
      cases bs with
      | nil => rfl
      | cons x xs => simp at h
    subst hnil
    rw [h1, h4]
    simp only [truthyStr]
    rw [hbs]
    rfl

/-- C3: running `migrateLegacySettings` twice produces the same `buttons`
array as running it once, and after either run no legacy field remains. -/
theorem migrateLegacySettings_idempotent (s : Settings) (a b c d : String) :
    (migrateLegacySettings (migrateLegacySettings s a b) c d).buttons =
      (migrateLegacySettings s a b).buttons ∧
    noLegacyFields (migrateLegacySettings s a b) ∧
    noLegacyFields (migrateLegacySettings (migrateLegacySettings s a b) c d) := by
  refine ⟨?_, migrateLegacySettings_noLegacy s a b,
    migrateLegacySettings_noLegacy _ c d⟩
  obtain ⟨bs, hbs⟩ := migrateLegacySettings_buttons_some s a b
  exact migrateLegacySettings_buttons_of_noLegacy _ bs c d
    (migrateLegacySettings_noLegacy s a b) hbs

/-- C4: migrating legacy settings holding an uploaded file named `a.pdf`
and the contact string `foo@bar.com` yields a file button labelled
"Download" followed by an email button labelled "Contact Us", because the
contact string contains `@` and lacks an http(s) prefix. -/
theorem migrateLegacySettings_scenario (f : FileData) (id1 id2 : String)
    (_hname : f.name = "a.pdf") :
    (migrateLegacySettings
      { layoutStyle := "single", buttons := some [], uploadedFile := some f,
        uploadedFileName := none, downloadButtonText := none,
        contactButtonUrl := some "foo@bar.com", contactButtonText := none }
      id1 id2).buttons =
    some [{ id := id1, type := "file", label := "Download", file := some f,
            href := none, email := none },
          { id := id2, type := "email", label := "Contact Us", file := none,
            href := none, email := some "foo@bar.com" }] := by
  rfl

def pdfData : FileData :=
  { name := "a.pdf", size := 7, mimeType := "application/pdf", dataUrl := "data:x" }

theorem migrateLegacySettings_scenario_witness :
    pdfData.name = "a.pdf" ∧
    (migrateLegacySettings
      { layoutStyle := "single", buttons := some [], uploadedFile := some pdfData,
        uploadedFileName := none, downloadButtonText := none,
        contactButtonUrl := some "foo@bar.com", contactButtonText := none }
      "b1" "b2").buttons =
    some [{ id := "b1", type := "file", label := "Download", file := some pdfData,
            href := none, email := none },
          { id := "b2", type := "email", label := "Contact Us", file := none,
            href := none, email := some "foo@bar.com" }] :=
  ⟨rfl, migrateLegacySettings_scenario pdfData "b1" "b2" rfl⟩

-- ===================================================
-- BUTTONS MANAGER (README.md: addButton)
-- ===================================================

/-- `addButton(type)`: returns the updated settings paired with a flag that
is `true` exactly when the user-visible "up to 3 buttons" rejection toast
was shown.  Invalid types return silently; a full list is rejected with the
toast; otherwise one button with the type's default label and an empty
type-specific field is appended. -/
def addButton (s : Settings) (type : String) (newId : String) :
    Settings × Bool :=
  if !(["file", "link", "email"].contains type) then (s, false)
  else
    let buttons := s.buttons.getD []
    if buttons.length ≥ 3 then (s, true)
    else
      let label := if type = "file" then "Download"
        else if type = "link" then "Visit site"
        else "Email us"
      let newBtn : Button :=
        { id := newId, type := type, label := label
          file := none
          href := if type = "link" then some "" else none
          email := if type = "email" then some "" else none }
      ({ s with buttons := some (buttons ++ [newBtn]) }, false)

/-- C2: `addButton` never grows the buttons list beyond length 3; when the
list already holds three (or more) entries the settings are returned
unchanged and, for a valid type, the user-visible rejection is signalled
instead of appending. -/
theorem addButton_cap (s : Settings) (type newId : String) :
    (((addButton s type newId).1.buttons.getD []).length ≤ 3 ∨
      (addButton s type newId).1 = s) ∧
    (3 ≤ (s.buttons.getD []).length →
      (addButton s type newId).1 = s ∧
      ((type = "file" ∨ type = "link" ∨ type = "email") →
        (addButton s type newId).2 = true)) := by
  unfold addButton
  by_cases hv : (["file", "link", "email"].contains type)
  · simp only [hv, Bool.not_true, Bool.false_eq_true, if_false]
    by_cases hlen : (s.buttons.getD []).length ≥ 3
    · rw [if_pos hlen]
      exact ⟨Or.inr rfl, fun _ => ⟨rfl, fun _ => rfl⟩⟩
    · rw [if_neg hlen]
      refine ⟨Or.inl ?_, fun h => absurd h hlen⟩
      simp only [Option.getD_some, List.length_append, List.length_cons,
        List.length_nil]
      omega
  · simp only [Bool.not_eq_true] at hv
    simp only [hv, Bool.not_false, if_true]
    refine ⟨Or.inr trivial, fun _ => ⟨trivial, fun ht => ?_⟩⟩
    rcases ht with h | h | h <;> rw [h] at hv <;> simp [List.contains] at hv

def fullSettings : Settings :=
  { layoutStyle := "single"
    buttons := some [{ id := "x1", type := "file", label := "Download" },
                     { id := "x2", type := "link", label := "Visit site",
                       href := some "a.com" },
                     { id := "x3", type := "email", label := "Email us",
                       email := some "a@b.c" }] }

theorem addButton_cap_witness :
    (addButton fullSettings "file" "x4").1 = fullSettings ∧
    (addButton fullSettings "file" "x4").2 = true := by
  have h := addButton_cap fullSettings "file" "x4"
  have h3 : 3 ≤ (fullSettings.buttons.getD []).length := by decide
  exact ⟨(h.2 h3).1, (h.2 h3).2 (Or.inl rfl)⟩

/-- C9: with fewer than three buttons and a valid type, `addButton` appends
exactly one button carrying the type's default label and an empty
type-specific field for its type (`href` for link, `email` for email; a
file button starts with no stored file), and no toast is shown. -/
theorem addButton_appends (s : Settings) (type newId : String)
    (hv : type = "file" ∨ type = "link" ∨ type = "email")
    (hlen : (s.buttons.getD []).length < 3) :
    (addButton s type newId).1.buttons =
      some (s.buttons.getD [] ++
        [{ id := newId, type := type
           label := if type = "file" then "Download"
             else if type = "link" then "Visit site"
             else "Email us"
           file := none
           href := if type = "link" then some "" else none
           email := if type = "email" then some "" else none }]) ∧
    (addButton s type newId).2 = false := by
  have hc : (["file", "link", "email"].contains type) = true := by
    rcases hv with h | h | h <;> rw [h] <;> decide
  unfold addButton
  rw [hc]
  simp only [Bool.not_true, Bool.false_eq_true, if_false]
  rw [if_neg (by omega : ¬ (s.buttons.getD []).length ≥ 3)]
  exact ⟨rfl, rfl⟩

theorem addButton_appends_witness :
    (addButton { layoutStyle := "single", buttons := some [] } "link" "n1").1.buttons =
      some [{ id := "n1", type := "link", label := "Visit site",
              file := none, href := some "", email := none }] ∧
    (addButton { layoutStyle := "single", buttons := some [] } "link" "n1").2 = false := by
  have h := addButton_appends { layoutStyle := "single", buttons := some [] }
    "link" "n1" (Or.inr (Or.inl rfl)) (by decide)
  simpa using h

-- ===================================================
-- ICON-VISIBILITY DEFAULTING (js/editor.js: renderSections)
-- ===================================================

/-- The defaulting step of `renderSections`: a section whose `showIcon` is
`undefined` gets `showIcon = true`; any other section is untouched. -/
def defaultShowIcon (sec : Section) : Section :=
  if sec.showIcon = none then { sec with showIcon := some true } else sec

/-- The pass `renderSections` runs over all sections of the project before
building the editor DOM. -/
def renderSectionsDefaulting (p : Project) : Project :=
  { p with sections := p.sections.map defaultShowIcon }

def blankSection : Section :=
  { id := "", name := "", icon := "", isHeader := false, showIcon := none,
    content := [] }

/-- Concrete project on which the literal reading of C8 fails: two sections
both lack `showIcon`. -/
def twoLegacyProject : Project :=
  { title := some "T"
    logoUrl := none
    sections := [{ id := "a", name := "A", icon := "1", isHeader := true,
                   showIcon := none, content := [] },
                 { id := "b", name := "B", icon := "2", isHeader := false,
                   showIcon := none, content := [] }] }

/-- C8 counterexample: in `twoLegacyProject` the section at index 0 lacks
`showIcon`, yet the render pass also modifies the section at index 1 (its
`showIcon` is set to `true` as well), so "no field of any other section is
modified" is false as stated. -/
theorem renderSections_modifies_other_section :
    ((twoLegacyProject.sections.getD 0 blankSection).showIcon = none) ∧
    ((renderSectionsDefaulting twoLegacyProject).sections.getD 1 blankSection ≠
      twoLegacyProject.sections.getD 1 blankSection) := by
  refine ⟨rfl, ?_⟩
  decide

/-- C8 (amended): the render pass sets `showIcon = true` on every section
whose `showIcon` is absent, leaves an explicitly set `showIcon` alone, and
modifies no other field of any section and nothing else of the project. -/
theorem renderSections_defaulting_frame (p : Project) (i : Nat)
    (h : i < p.sections.length) :
    ∃ h2 : i < (renderSectionsDefaulting p).sections.length,
      ((renderSectionsDefaulting p).sections.get ⟨i, h2⟩).showIcon =
        (if (p.sections.get ⟨i, h⟩).showIcon = none then some true
         else (p.sections.get ⟨i, h⟩).showIcon) ∧
      ((renderSectionsDefaulting p).sections.get ⟨i, h2⟩).id =
        (p.sections.get ⟨i, h⟩).id ∧
      ((renderSectionsDefaulting p).sections.get ⟨i, h2⟩).name =
        (p.sections.get ⟨i, h⟩).name ∧
      ((renderSectionsDefaulting p).sections.get ⟨i, h2⟩).icon =
        (p.sections.get ⟨i, h⟩).icon ∧
      ((renderSectionsDefaulting p).sections.get ⟨i, h2⟩).isHeader =
        (p.sections.get ⟨i, h⟩).isHeader ∧
      ((renderSectionsDefaulting p).sections.get ⟨i, h2⟩).content =
        (p.sections.get ⟨i, h⟩).content ∧
      (renderSectionsDefaulting p).title = p.title ∧
      (renderSectionsDefaulting p).logoUrl = p.logoUrl ∧
      (renderSectionsDefaulting p).sections.length = p.sections.length := by
  have hlen : (renderSectionsDefaulting p).sections.length =
      p.sections.length := by
    simp [renderSectionsDefaulting]
  refine ⟨by omega, ?_⟩
  have hget : (renderSectionsDefaulting p).sections.get ⟨i, by omega⟩ =
      defaultShowIcon (p.sections.get ⟨i, h⟩) := by
    simp [renderSectionsDefaulting]
  rw [hget]
  unfold defaultShowIcon
  by_cases hsi : (p.sections.get ⟨i, h⟩).showIcon = none
  · rw [if_pos hsi, if_pos hsi]
    exact ⟨rfl, rfl, rfl, rfl, rfl, rfl, rfl, rfl, hlen⟩
  · rw [if_neg hsi, if_neg hsi]
    exact ⟨rfl, rfl, rfl, rfl, rfl, rfl, rfl, rfl, hlen⟩

theorem renderSections_defaulting_frame_witness :
    0 < twoLegacyProject.sections.length ∧
    ((renderSectionsDefaulting twoLegacyProject).sections.getD 0
      blankSection).showIcon = some true := by
  have h := renderSections_defaulting_frame twoLegacyProject 0 (by decide)
  obtain ⟨h2, hsi, _⟩ := h
  refine ⟨by decide, ?_⟩
  have : (renderSectionsDefaulting twoLegacyProject).sections.getD 0
      blankSection =
      (renderSectionsDefaulting twoLegacyProject).sections.get ⟨0, h2⟩ := rfl
  rw [this, hsi]
  rfl

-- ===================================================
-- RENDER PIPELINE (README.md: generatePreviewNavigation,
-- generatePreviewButtonsArray, generatePreviewSections)
-- ===================================================

/-- A single-quote character as a string (used inside `onclick` handlers). -/
def sq : String := (Char.ofNat 39).toString

/-- JS `array.join('')`. -/
def strJoin : List String → String
  | [] => ""
  | s :: rest => s ++ strJoin rest

/-- One character of the HTML-escaping helper `esc` (the sequential
regex replaces are equivalent to a per-character map since no replacement
string contains a later pattern). -/
def escChar (c : Char) : String :=
  if c = '&' then "&amp;"
  else if c = '<' then "&lt;"
  else if c = '>' then "&gt;"
  else if c = '\"' then "&quot;"
  else if c = Char.ofNat 39 then "&#39;"
  else c.toString

def esc (s : String) : String := strJoin (s.data.map escChar)

/-- `btn.label || (btn.type === 'file' ? 'Download' : btn.type === 'email'
? 'Email us' : 'Visit site')`. -/
def previewButtonLabel (btn : Button) : String :=
  if btn.label = "" then
    if btn.type = "file" then "Download"
    else if btn.type = "email" then "Email us"
    else "Visit site"
  else btn.label

/-- The markup pushed for one configured button, or `none` when the button
is skipped (missing/empty type-specific payload). -/
def previewButtonMarkup (btn : Button) : Option String :=
  let label := previewButtonLabel btn
  if btn.type = "file" then
    match btn.file with
    | some f => some ("<button class=\"pdf-download\" onclick=\"alert(" ++ sq ++
        "Download: " ++ esc f.name ++ sq ++ ")\">📄 " ++ esc label ++ "</button>")
    | none => none
  else if btn.type = "email" then
    match truthyStr btn.email with
    | some e => some ("<button class=\"pdf-download\" onclick=\"alert(" ++ sq ++
        "Email: " ++ esc e ++ sq ++ ")\">📧 " ++ esc label ++ "</button>")
    | none => none
  else if btn.type = "link" then
    match truthyStr btn.href with
    | some h0 =>
      let trimmed := trimStr h0
      let normalized :=
        if startsWithStr (lowerStr trimmed) "http://" ||
           startsWithStr (lowerStr trimmed) "https://" then trimmed
        else "https://" ++ trimmed
      some ("<button class=\"pdf-download\" onclick=\"alert(" ++ sq ++
        "Link: " ++ esc normalized ++ sq ++ ")\">🔗 " ++ esc label ++ "</button>")
    | none => none
  else none

def generatePreviewButtonsArray (st : Settings) : List String :=
  (st.buttons.getD []).filterMap previewButtonMarkup

/-- Section link label respecting the `showIcon` flag (icon omitted only
when `showIcon === false`). -/
def buildSectionLabel (sec : Section) : String :=
  (if sec.showIcon = some false then "" else sec.icon ++ " ") ++ sec.name

def navLink (sec : Section) : String :=
  "<a href=\"#" ++ sec.id ++ "\">" ++ buildSectionLabel sec ++ "</a>"

def menuLink (sec : Section) : String :=
  "<a href=\"#" ++ sec.id ++ "\" onclick=\"toggleMenu()\">" ++
    buildSectionLabel sec ++ "</a>"

/-- `generatePreviewNavigation`: one link per section (all sections,
including the header) plus the button list, for the `sections` and `menu`
layouts; empty navigation otherwise. -/
def generatePreviewNavigation (p : Project) (st : Settings) : String :=
  let buttons := generatePreviewButtonsArray st
  if st.layoutStyle = "sections" then
    "<nav><div class=\"nav-container\">" ++ strJoin (p.sections.map navLink) ++
      "<div style=\"margin-left: auto;\">" ++ strJoin buttons ++
      "</div></div></nav>"
  else if st.layoutStyle = "menu" then
    "<div id=\"hamburgerMenu\"><button onclick=\"toggleMenu()\">" ++
      "<div class=\"menu-line\"></div><div class=\"menu-line\"></div>" ++
      "<div class=\"menu-line\"></div></button><div id=\"menuDropdown\">" ++
      strJoin (p.sections.map menuLink) ++ "<hr>" ++ strJoin buttons ++
      "</div></div>"
  else ""

/-- A content block inside the header section: text only, raw if
`allowHtml`, otherwise wrapped in a `div`. -/
def renderHeaderContent (c : ContentBlock) : String :=
  if c.type = "text" then
    (if c.allowHtml then c.value else "<div>" ++ c.value ++ "</div>")
  else ""

/-- The header section renders only the logo (if any) and its content
blocks; its name and icon are not rendered. -/
def renderHeaderSection (logoUrl : Option String) (sec : Section) : String :=
  "<div class=\"header\" id=\"" ++ sec.id ++ "\">" ++
  (match truthyStr logoUrl with
   | some u => "<div><img src=\"" ++ u ++ "\" class=\"logo\" alt=\"Logo\"></div>"
   | none => "") ++
  strJoin (sec.content.map renderHeaderContent) ++ "</div>"

def renderSectionContent (sectionName : String) (c : ContentBlock) : String :=
  if c.type = "text" then "<div class=\"content-block\">" ++ c.value ++ "</div>"
  else if c.type = "image" then
    match truthyStr c.url with
    | some u =>
      "<div class=\"image-block\"><img src=\"" ++ u ++ "\" alt=\"" ++
        sectionName ++ " image\">" ++
      (match truthyStr c.caption with
       | some cap => "<div class=\"image-caption\">" ++ cap ++ "</div>"
       | none => "") ++ "</div>"
    | none => ""
  else ""

/-- A non-header section renders an icon+name heading (icon omitted when
`showIcon === false`) followed by its content blocks. -/
def renderNonHeaderSection (sec : Section) : String :=
  "<div class=\"section\" id=\"" ++ sec.id ++ "\"><h2>" ++
  (if sec.showIcon = some false then "" else sec.icon ++ " ") ++ sec.name ++
  "</h2>" ++ strJoin (sec.content.map (renderSectionContent sec.name)) ++
  "</div>"

def generatePreviewSections (p : Project) : String :=
  strJoin (p.sections.map (fun sec =>
    if sec.isHeader then renderHeaderSection p.logoUrl sec
    else renderNonHeaderSection sec))

-- Substring lemmas used for the navigation containment facts.

theorem leadsWith_self_append (t r : List Char) :
    leadsWith t (t ++ r) = true := by
  induction t with
  | nil => rfl
  | cons a as ih => simp [leadsWith, ih]

theorem occursIn_of_leadsWith (t s : List Char) (h : leadsWith t s = true) :
    occursIn t s = true := by
  cases s with
  | nil => simpa [occursIn] using h
  | cons c cs => simp [occursIn, h]

theorem occursIn_append_right (t a b : List Char) (h : occursIn t b = true) :
    occursIn t (a ++ b) = true := by
  induction a with
  | nil => simpa using h
  | cons c cs ih => simp [occursIn, ih]

theorem occursIn_middle (t a b : List Char) :
    occursIn t (a ++ (t ++ b)) = true :=
  occursIn_append_right t a _ (occursIn_of_leadsWith t _ (leadsWith_self_append t b))

/-- Concrete project/settings on which the literal reading of C5 fails. -/
def headerOnlyProject : Project :=
  { title := some "T"
    logoUrl := none
    sections := [{ id := "h", name := "Header", icon := "📄", isHeader := true,
                   showIcon := none, content := [] }] }

def sectionsLayoutSettings : Settings :=
  { layoutStyle := "sections", buttons := some [] }

/-- C5 counterexample: for a project whose section at index 0 is the header
(with icon 📄) and `layoutStyle = "sections"`, the generated navigation
markup does contain the header section's icon — the navigation loop maps
over all sections, the header included. -/
theorem navigation_contains_header_icon :
    (headerOnlyProject.sections.getD 0 blankSection).isHeader = true ∧
    sectionsLayoutSettings.layoutStyle = "sections" ∧
    strHasSub (generatePreviewNavigation headerOnlyProject sectionsLayoutSettings)
      ((headerOnlyProject.sections.getD 0 blankSection).icon) = true := by
  refine ⟨rfl, rfl, ?_⟩
  decide

/-- C5 (amended): for a project whose first section is the header, the
navigation for the `sections` and `menu` layouts treats the header like any
other section — in particular its icon does appear in the navigation
markup whenever `showIcon` is not explicitly `false` — while the header's
rendered section markup shows neither its name nor its icon (replacing
them leaves the section markup unchanged). -/
theorem header_in_nav_unlabeled_in_body (p : Project) (st : Settings)
    (hd : Section) (rest : List Section) (hs : p.sections = hd :: rest)
    (hh : hd.isHeader = true) :
    ((st.layoutStyle = "sections" ∨ st.layoutStyle = "menu") →
      hd.showIcon ≠ some false →
      strHasSub (generatePreviewNavigation p st) hd.icon = true) ∧
    (∀ n i, generatePreviewSections
        { p with sections := { hd with name := n, icon := i } :: rest } =
      generatePreviewSections p) := by
  constructor
  · intro hlay hsi
    have hlabel : buildSectionLabel hd = hd.icon ++ " " ++ hd.name := by
      unfold buildSectionLabel
      rw [if_neg hsi]
    rcases hlay with hl | hl
    · unfold generatePreviewNavigation
      rw [if_pos hl, hs]
      simp only [List.map_cons, strJoin, navLink, hlabel, strHasSub,
        String.data_append, List.append_assoc]
      apply occursIn_append_right
      apply occursIn_append_right
      apply occursIn_append_right
      apply occursIn_append_right
      exact occursIn_of_leadsWith _ _ (leadsWith_self_append _ _)
    · unfold generatePreviewNavigation
      have hne : ¬ st.layoutStyle = "sections" := by
        rw [hl]
        decide
      rw [if_neg hne, if_pos hl, hs]
      simp only [List.map_cons, strJoin, menuLink, hlabel, strHasSub,
        String.data_append, List.append_assoc]
      apply occursIn_append_right
      apply occursIn_append_right
      apply occursIn_append_right
      apply occursIn_append_right
      apply occursIn_append_right
      apply occursIn_append_right
      exact occursIn_of_leadsWith _ _ (leadsWith_self_append _ _)
  · intro n i
    unfold generatePreviewSections
    rw [hs]
    simp only [List.map_cons]
    have hh2 : ({ hd with name := n, icon := i } : Section).isHeader = true := hh
    rw [show ({ p with sections := { hd with name := n, icon := i } :: rest } :
        Project).logoUrl = p.logoUrl from rfl]
    simp only [hh, hh2, if_true]
    rfl

theorem header_in_nav_unlabeled_in_body_witness :
    strHasSub (generatePreviewNavigation headerOnlyProject
      { layoutStyle := "menu", buttons := some [] })
      ((headerOnlyProject.sections.getD 0 blankSection).icon) = true ∧
    generatePreviewSections
      { headerOnlyProject with
          sections := [{ id := "h", name := "Other", icon := "X",
                         isHeader := true, showIcon := none, content := [] }] } =
      generatePreviewSections headerOnlyProject := by
  have h := header_in_nav_unlabeled_in_body headerOnlyProject
    { layoutStyle := "menu", buttons := some [] }
    { id := "h", name := "Header", icon := "📄", isHeader := true,
      showIcon := none, content := [] } [] rfl rfl
  exact ⟨h.1 (Or.inr rfl) (by decide), h.2 "Other" "X"⟩

-- ===================================================
-- TEXT PARSING (js/fileHandlers.js: parseTextIntoSections,
-- detectSectionIcon)
-- ===================================================

/-- Prepend a character to the first piece of a split (helper for the
line-splitting recursion). -/
def consHead (c : Char) : List (List Char) → List (List Char)
  | [] => [[c]]
  | l :: ls => (c :: l) :: ls

/-- JS `text.split(/\r?\n/)`: split on newlines, consuming one carriage
return directly before each newline. -/
def splitNl : List Char → List (List Char)
  | [] => [[]]
  | '\r' :: '\n' :: cs => [] :: splitNl cs
  | '\n' :: cs => [] :: splitNl cs
  | c :: cs => consHead c (splitNl cs)

/-- `text.split(/\r?\n/).filter(line => line.trim())`. -/
def linesOf (text : String) : List String :=
  ((splitNl text.data).map String.mk).filter (fun l => trimStr l != "")

/-- JS `fileName.replace(/\.[^/.]+$/, '')`: strip a trailing dot-extension
(one or more characters none of which is a dot or slash). -/
def stripExtension (s : String) : String :=
  let r := s.data.reverse
  let ext := r.takeWhile (fun c => c != '.' && c != '/')
  match r.drop ext.length with
  | '.' :: restRev => if ext.isEmpty then s else String.mk restRev.reverse
  | _ => s

/-- JS `matched.replace(/\s+/g, '-')`: each maximal whitespace run becomes
a single dash. -/
theorem length_dropWhile_ws_le (l : List Char) :
    (l.dropWhile Char.isWhitespace).length ≤ l.length := by
  induction l with
  | nil => simp
  | cons c cs ih =>
    by_cases hc : Char.isWhitespace c
    · rw [List.dropWhile_cons_of_pos hc]
      simp only [List.length_cons]
      omega
    · rw [List.dropWhile_cons_of_neg hc]

def dashRuns : List Char → List Char
  | [] => []
  | c :: cs =>
    if c.isWhitespace then '-' :: dashRuns (cs.dropWhile Char.isWhitespace)
    else c :: dashRuns cs
termination_by l => l.length
decreasing_by
  all_goals simp only [List.length_cons]
  · have := length_dropWhile_ws_le cs
    omega
  · omega

/-- JS `s.charAt(0).toUpperCase() + s.slice(1)`. -/
def capitalizeFirst (s : String) : String :=
  match s.data with
  | [] => ""
  | c :: cs => String.mk (c.toUpper :: cs)

/-- JS `[].join(sep)` / `[a,…].join(sep)`. -/
def strIntercalate (sep : String) : List String → String
  | [] => ""
  | [s] => s
  | s :: s2 :: rest => s ++ sep ++ strIntercalate sep (s2 :: rest)

/-- The icon map of `detectSectionIcon` in Object.entries insertion order
(the icon strings appear in the source in this mangled encoding). -/
def iconMapEntries : List (String × String) :=
  [("introduction", "üìñ"), ("overview", "üìñ"), ("objective", "üéØ"),
   ("goal", "üéØ"), ("method", "üî¨"), ("result", "üìä"),
   ("finding", "üìä"), ("conclusion", "‚úÖ"), ("summary", "‚úÖ"),
   ("question", "‚ùì"), ("q&a", "‚ùì"), ("thank", "üôè"),
   ("reference", "üìö"), ("bibliography", "üìö"), ("contact", "üìß"),
   ("background", "üìö"), ("discussion", "üí¨"), ("analysis", "üìà"),
   ("data", "üìä"), ("recommendation", "üí°"), ("future", "üîÆ"),
   ("challenge", "‚ö†Ô∏è"), ("solution", "üí°")]

/-- `detectSectionIcon(text)`: the icon of the first map entry whose
keyword occurs in the text, or the default page icon. -/
def detectSectionIcon (text : String) : String :=
  match iconMapEntries.find? (fun e => strHasSub text e.1) with
  | some e => e.2
  | none => "üìÑ"

/-- The fixed list of recognized section-header keywords. -/
def sectionHeadersList : List String :=
  ["abstract", "introduction", "background", "methods", "methodology",
   "results", "discussion", "conclusion", "references", "acknowledgments",
   "summary", "objectives", "materials", "analysis", "findings",
   "recommendations", "future work", "limitations", "appendix"]

/-- The header-detection test run on each line: the first keyword that the
lowercased trimmed line starts with, equals, or contains followed by a
colon. -/
def matchedHeaderOf (line : String) : Option String :=
  let lowerLine := trimStr (lowerStr line)
  sectionHeadersList.find? (fun h =>
    startsWithStr lowerLine h || lowerLine == h || strHasSub lowerLine (h ++ ":"))

/-- The content block produced from the accumulated content lines:
`'<p>' + currentContent.join('</p><p>') + '</p>'`. -/
def joinContentBlock (curc : List String) : ContentBlock :=
  { type := "text"
    value := "<p>" ++ strIntercalate "</p><p>" curc ++ "</p>"
    allowHtml := false
    url := none
    caption := none
    id := none }

/-- The fresh section started when a header keyword matches. -/
def mkKeywordSection (matched : String) : Section :=
  { id := String.mk (dashRuns matched.data)
    icon := detectSectionIcon matched
    name := capitalizeFirst matched
    isHeader := false
    showIcon := none
    content := [] }

/-- Save the in-progress section if it exists and has accumulated content
(`if (currentSection && currentContent.length > 0)`). -/
def flushSection (secs : List Section) (cur : Option Section)
    (curc : List String) : List Section :=
  match cur, curc with
  | some cs, c0 :: crest =>
    secs ++ [{ cs with content := cs.content ++ [joinContentBlock (c0 :: crest)] }]
  | _, _ => secs

/-- The line loop of `parseTextIntoSections`: state is the saved sections,
the in-progress section and its accumulated content lines. -/
def parseLoop : List String → List Section → Option Section → List String →
    List Section × Option Section × List String
  | [], secs, cur, curc => (secs, cur, curc)
  | line :: restLines, secs, cur, curc =>
    match matchedHeaderOf line with
    | some matched =>
      parseLoop restLines (flushSection secs cur curc)
        (some (mkKeywordSection matched)) []
    | none =>
      if trimStr line ≠ "" then
        parseLoop restLines secs cur (curc ++ [trimStr line])
      else parseLoop restLines secs cur curc

/-- The header section created first by `parseTextIntoSections`. -/
def mkHeaderSectionOf (fileName : String) : Section :=
  { id := "header"
    name := "Header"
    icon := "üìÑ"
    isHeader := true
    showIcon := none
    content := [{ type := "text"
                  value := "<h1>" ++ stripExtension fileName ++ "</h1>"
                  allowHtml := false
                  url := none
                  caption := none
                  id := none }] }

/-- The catch-all section pushed when no header keyword was detected. -/
def fallbackContentSection (text : String) : Section :=
  { id := "content"
    icon := "üìÑ"
    name := "Content"
    isHeader := false
    showIcon := none
    content := [{ type := "text"
                  value := "<p>" ++ strIntercalate "</p><p>" (linesOf text) ++ "</p>"
                  allowHtml := false
                  url := none
                  caption := none
                  id := none }] }

/-- `parseTextIntoSections(text, fileName)`. -/
def parseTextIntoSections (text fileName : String) : List Section :=
  let r := parseLoop (linesOf text) [mkHeaderSectionOf fileName] none []
  let secs2 := flushSection r.1 r.2.1 r.2.2
  if secs2.length = 1 then secs2 ++ [fallbackContentSection text]
  else secs2

theorem flushSection_extend (secs : List Section) (cur : Option Section)
    (curc : List String) : ∃ e, flushSection secs cur curc = secs ++ e := by
  match cur, curc with
  | some cs, c0 :: crest => exact ⟨_, rfl⟩
  | some cs, [] => exact ⟨[], by simp [flushSection]⟩
  | none, _ => exact ⟨[], by simp [flushSection]⟩

theorem parseLoop_extend (lines : List String) (secs : List Section)
    (cur : Option Section) (curc : List String) :
    ∃ e, (parseLoop lines secs cur curc).1 = secs ++ e := by
  induction lines generalizing secs cur curc with
  | nil => exact ⟨[], by simp [parseLoop]⟩
  | cons line restLines ih =>
    match hm : matchedHeaderOf line with
    | some matched =>
      obtain ⟨e1, he1⟩ := flushSection_extend secs cur curc
      obtain ⟨e2, he2⟩ := ih (flushSection secs cur curc)
        (some (mkKeywordSection matched)) []
      refine ⟨e1 ++ e2, ?_⟩
      simp only [parseLoop, hm]
      rw [he2, he1, List.append_assoc]
    | none =>
      by_cases ht : trimStr line ≠ ""
      · obtain ⟨e, he⟩ := ih secs cur (curc ++ [trimStr line])
        exact ⟨e, by simp only [parseLoop, hm, if_pos ht]; exact he⟩
      · obtain ⟨e, he⟩ := ih secs cur curc
        exact ⟨e, by simp only [parseLoop, hm, if_neg ht]; exact he⟩

theorem parseLoop_no_match (lines : List String) (secs : List Section)
    (curc : List String) (h : ∀ l ∈ lines, matchedHeaderOf l = none) :
    (parseLoop lines secs none curc).1 = secs ∧
    (parseLoop lines secs none curc).2.1 = none := by
  induction lines generalizing curc with
  | nil => exact ⟨rfl, rfl⟩
  | cons line restLines ih =>
    have hm : matchedHeaderOf line = none := h line (by simp)
    have hrest : ∀ l ∈ restLines, matchedHeaderOf l = none :=
      fun l hl => h l (by simp [hl])
    by_cases ht : trimStr line ≠ ""
    · simpa only [parseLoop, hm, if_pos ht] using ih (curc ++ [trimStr line]) hrest
    · simpa only [parseLoop, hm, if_neg ht] using ih curc hrest

/-- C10: `parseTextIntoSections` always returns at least two sections, the
first being the `isHeader` section named "Header" holding the cleaned file
name as a level-1 heading; and when no header keyword is detected in the
text, the whole content lands in a single extra "Content" section. -/
theorem parseTextIntoSections_shape (text fileName : String) :
    (∃ rest, parseTextIntoSections text fileName =
      mkHeaderSectionOf fileName :: rest) ∧
    2 ≤ (parseTextIntoSections text fileName).length ∧
    (mkHeaderSectionOf fileName).isHeader = true ∧
    (mkHeaderSectionOf fileName).name = "Header" ∧
    (mkHeaderSectionOf fileName).content =
      [{ type := "text"
         value := "<h1>" ++ stripExtension fileName ++ "</h1>"
         allowHtml := false
         url := none
         caption := none
         id := none }] ∧
    ((∀ l ∈ linesOf text, matchedHeaderOf l = none) →
      parseTextIntoSections text fileName =
        [mkHeaderSectionOf fileName, fallbackContentSection text]) := by
  obtain ⟨e1, he1⟩ := parseLoop_extend (linesOf text)
    [mkHeaderSectionOf fileName] none []
  obtain ⟨e2, he2⟩ := flushSection_extend
    (parseLoop (linesOf text) [mkHeaderSectionOf fileName] none []).1
    (parseLoop (linesOf text) [mkHeaderSectionOf fileName] none []).2.1
    (parseLoop (linesOf text) [mkHeaderSectionOf fileName] none []).2.2
  have hsecs2 : flushSection
      (parseLoop (linesOf text) [mkHeaderSectionOf fileName] none []).1
      (parseLoop (linesOf text) [mkHeaderSectionOf fileName] none []).2.1
      (parseLoop (linesOf text) [mkHeaderSectionOf fileName] none []).2.2 =
      mkHeaderSectionOf fileName :: (e1 ++ e2) := by
    rw [he2, he1]
    simp
  have hdef : parseTextIntoSections text fileName =
      (if (mkHeaderSectionOf fileName :: (e1 ++ e2)).length = 1 then
        (mkHeaderSectionOf fileName :: (e1 ++ e2)) ++ [fallbackContentSection text]
      else (mkHeaderSectionOf fileName :: (e1 ++ e2))) := by
    simp only [parseTextIntoSections]
    rw [hsecs2]
  refine ⟨?_, ?_, rfl, rfl, rfl, ?_⟩
  · rw [hdef]
    by_cases hl : (mkHeaderSectionOf fileName :: (e1 ++ e2)).length = 1
    · rw [if_pos hl]
      exact ⟨(e1 ++ e2) ++ [fallbackContentSection text], by simp⟩
    · rw [if_neg hl]
      exact ⟨e1 ++ e2, rfl⟩
  · rw [hdef]
    by_cases hl : (mkHeaderSectionOf fileName :: (e1 ++ e2)).length = 1
    · rw [if_pos hl]
      simp at hl
      simp [hl]
    · rw [if_neg hl]
      simp only [List.length_cons] at hl ⊢
      omega
  · intro hno
    obtain ⟨hp1, hp2⟩ := parseLoop_no_match (linesOf text)
      [mkHeaderSectionOf fileName] [] hno
    have hflush : flushSection
        (parseLoop (linesOf text) [mkHeaderSectionOf fileName] none []).1
        (parseLoop (linesOf text) [mkHeaderSectionOf fileName] none []).2.1
        (parseLoop (linesOf text) [mkHeaderSectionOf fileName] none []).2.2 =
        [mkHeaderSectionOf fileName] := by
      rw [hp2, hp1]
      simp [flushSection]
    simp only [parseTextIntoSections]
    rw [hflush]
    simp

theorem parseTextIntoSections_shape_witness :
    (∀ l ∈ linesOf "hello world", matchedHeaderOf l = none) ∧
    parseTextIntoSections "hello world" "poster.txt" =
      [mkHeaderSectionOf "poster.txt", fallbackContentSection "hello world"] := by
  have hno : ∀ l ∈ linesOf "hello world", matchedHeaderOf l = none := by decide
  exact ⟨hno, (parseTextIntoSections_shape "hello world" "poster.txt").2.2.2.2.2 hno⟩

-- ===================================================
-- COLOR CONTRAST (README.md: getContrastColor)
-- ===================================================

/-- JS `hex.replace('#', '')`: a string pattern replaces only the first
occurrence. -/
def removeFirstHash : List Char → List Char
  | [] => []
  | c :: cs => if c = '#' then cs else c :: removeFirstHash cs

/-- JS `clean.split('').map(ch => ch + ch).join('')`. -/
def dupChars : List Char → List Char
  | [] => []
  | c :: cs => c :: c :: dupChars cs

/-- Strip the hash and expand 3-digit shorthand to 6 digits. -/
def cleanHexChars (hex : String) : List Char :=
  let cleaned := removeFirstHash hex.data
  if cleaned.length = 3 then dupChars cleaned else cleaned

/-- `parseInt` value of one hex digit (either case). -/
def hexDigitVal (c : Char) : Nat :=
  if '0' ≤ c ∧ c ≤ '9' then c.toNat - '0'.toNat
  else if 'a' ≤ c ∧ c ≤ 'f' then c.toNat - 'a'.toNat + 10
  else if 'A' ≤ c ∧ c ≤ 'F' then c.toNat - 'A'.toNat + 10
  else 0

/-- `parseInt(clean.substring(i, i+2), 16)`. -/
def hexPairVal (l : List Char) (i : Nat) : Nat :=
  16 * hexDigitVal (l.getD i '0') + hexDigitVal (l.getD (i + 1) '0')

/-- One channel as a 0–1 value. -/
noncomputable def channelVal (l : List Char) (i : Nat) : ℝ :=
  (hexPairVal l i : ℝ) / 255

/-- The sRGB-to-linear transform
`c <= 0.03928 ? c / 12.92 : Math.pow((c + 0.055) / 1.055, 2.4)`. -/
noncomputable def toLinear (c : ℝ) : ℝ :=
  if c ≤ 0.03928 then c / 12.92 else ((c + 0.055) / 1.055) ^ (2.4 : ℝ)

/-- The WCAG relative luminance computed by `getContrastColor`. -/
noncomputable def luminance (hex : String) : ℝ :=
  0.2126 * toLinear (channelVal (cleanHexChars hex) 0) +
  0.7152 * toLinear (channelVal (cleanHexChars hex) 2) +
  0.0722 * toLinear (channelVal (cleanHexChars hex) 4)

/-- `getContrastColor(hex)`: dark text over bright backgrounds, light text
otherwise. -/
noncomputable def getContrastColor (hex : String) : String :=
  if luminance hex > 0.5 then "#111111" else "#ffffff"

theorem toLinear_zero : toLinear 0 = 0 := by
  unfold toLinear
  rw [if_pos (by norm_num)]
  norm_num

theorem toLinear_one : toLinear 1 = 1 := by
  unfold toLinear
  rw [if_neg (by norm_num)]
  rw [show ((1:ℝ) + 0.055) / 1.055 = 1 by norm_num, Real.one_rpow]

/-- On (0.03928, 1] the transform is bounded by the square of the shifted
ratio, since the base lies in (0, 1] and the exponent exceeds 2. -/
theorem toLinear_le_sq (c : ℝ) (h1 : 0.03928 < c) (h2 : c ≤ 1) :
    toLinear c ≤ ((c + 0.055) / 1.055) ^ 2 := by
  unfold toLinear
  rw [if_neg (by linarith)]
  have hx0 : (0:ℝ) < (c + 0.055) / 1.055 := by
    apply div_pos <;> linarith
  have hx1 : (c + 0.055) / 1.055 ≤ 1 := by
    rw [div_le_one (by norm_num)]
    linarith
  calc ((c + 0.055) / 1.055) ^ (2.4 : ℝ)
      ≤ ((c + 0.055) / 1.055) ^ (((2:ℕ) : ℝ)) := by
        apply Real.rpow_le_rpow_of_exponent_ge hx0 hx1
        norm_num
    _ = ((c + 0.055) / 1.055) ^ (2:ℕ) := Real.rpow_natCast _ 2

theorem luminance_black : luminance "#000000" = 0 := by
  have e0 : hexPairVal (cleanHexChars "#000000") 0 = 0 := rfl
  have e2 : hexPairVal (cleanHexChars "#000000") 2 = 0 := rfl
  have e4 : hexPairVal (cleanHexChars "#000000") 4 = 0 := rfl
  unfold luminance channelVal
  rw [e0, e2, e4]
  norm_num [toLinear_zero]

theorem luminance_white : luminance "#ffffff" = 1 := by
  have e0 : hexPairVal (cleanHexChars "#ffffff") 0 = 255 := rfl
  have e2 : hexPairVal (cleanHexChars "#ffffff") 2 = 255 := rfl
  have e4 : hexPairVal (cleanHexChars "#ffffff") 4 = 255 := rfl
  unfold luminance channelVal
  rw [e0, e2, e4]
  rw [show ((255:ℕ) : ℝ) / 255 = 1 by norm_num]
  rw [toLinear_one]
  norm_num

theorem luminance_green_lt_half : luminance "#16a34a" < 0.5 := by
  have e0 : hexPairVal (cleanHexChars "#16a34a") 0 = 22 := rfl
  have e2 : hexPairVal (cleanHexChars "#16a34a") 2 = 163 := rfl
  have e4 : hexPairVal (cleanHexChars "#16a34a") 4 = 74 := rfl
  have b1 : toLinear ((22:ℝ) / 255) ≤ (((22:ℝ) / 255 + 0.055) / 1.055) ^ 2 :=
    toLinear_le_sq _ (by norm_num) (by norm_num)
  have b2 : toLinear ((163:ℝ) / 255) ≤ (((163:ℝ) / 255 + 0.055) / 1.055) ^ 2 :=
    toLinear_le_sq _ (by norm_num) (by norm_num)
  have b3 : toLinear ((74:ℝ) / 255) ≤ (((74:ℝ) / 255 + 0.055) / 1.055) ^ 2 :=
    toLinear_le_sq _ (by norm_num) (by norm_num)
  have hq : 0.2126 * ((((22:ℝ) / 255 + 0.055) / 1.055) ^ 2) +
      0.7152 * ((((163:ℝ) / 255 + 0.055) / 1.055) ^ 2) +
      0.0722 * ((((74:ℝ) / 255 + 0.055) / 1.055) ^ 2) < 0.5 := by
    norm_num
  unfold luminance channelVal
  rw [e0, e2, e4]
  push_cast
  linarith

/-- C7: `getContrastColor` returns the dark text color `#111111` exactly
when the WCAG relative luminance of the linearized channels exceeds 0.5 and
the light color `#ffffff` otherwise; black maps to light text, white to
dark text, and `#16a34a` (luminance below 0.5) to light text; a 3-digit
shorthand is first expanded by doubling each digit. -/
theorem getContrastColor_spec :
    (∀ hex : String,
      (getContrastColor hex = "#111111" ↔ luminance hex > 0.5) ∧
      (getContrastColor hex = "#ffffff" ↔ ¬ luminance hex > 0.5)) ∧
    getContrastColor "#000000" = "#ffffff" ∧
    getContrastColor "#ffffff" = "#111111" ∧
    getContrastColor "#16a34a" = "#ffffff" ∧
    (∀ a b c : Char,
      cleanHexChars (String.mk ['#', a, b, c]) = [a, a, b, b, c, c]) := by
  have hiff : ∀ hex : String,
      (getContrastColor hex = "#111111" ↔ luminance hex > 0.5) ∧
      (getContrastColor hex = "#ffffff" ↔ ¬ luminance hex > 0.5) := by
    intro hex
    unfold getContrastColor
    by_cases h : luminance hex > 0.5
    · rw [if_pos h]
      exact ⟨⟨fun _ => h, fun _ => rfl⟩,
        ⟨fun hw => absurd hw (by decide), fun hn => absurd h hn⟩⟩
    · rw [if_neg h]
      exact ⟨⟨fun hw => absurd hw (by decide), fun hl => absurd hl h⟩,
        ⟨fun _ => h, fun _ => rfl⟩⟩
  refine ⟨hiff, ?_, ?_, ?_, ?_⟩
  · exact (hiff "#000000").2.mpr (by rw [luminance_black]; norm_num)
  · exact (hiff "#ffffff").1.mpr (by rw [luminance_white]; norm_num)
  · exact (hiff "#16a34a").2.mpr (by
      have := luminance_green_lt_half
      linarith)
  · intro a b c
    simp [cleanHexChars, removeFirstHash, dupChars]

end Poster2web
